import Mathlib

/-!
Shallow embedding of the per-turn decision engine of src/league-1.py
(an "Unleash the Geek" bot).

Modelling conventions, each matching the Python source:
- Python floats only ever hold exact small integral values here (every
  weight is an integral constant and every feature is an integer), so
  scores are modelled as Int.
- Python dicts are modelled as association lists looked up with find?
  (dict iteration order is insertion order); Python sets are modelled as
  lists used only through membership, with set.update modelled as a
  membership-preserving append.
- The textual action protocol is modelled by the Action inductive;
  rendering the strings is the out-of-scope ActionEmitter boundary.
- Reading stdin is the out-of-scope input boundary: parse takes the
  already-read per-turn Snapshot as an argument.
- grid.tiles[y][x] indexing is modelled with getD and a junk default
  tile; every engine call site indexes in bounds (Python would raise on
  a genuinely missing index, and negative indices never reach get_tile
  through the engine's guards).
- The BFS while-loop is modelled with explicit fuel.  Each loop
  iteration pops one queue entry and entries are enqueued at most once
  per coordinate (the visited set is checked and extended at push time),
  so width*height + 2 units of fuel are never exhausted on any input the
  Python loop terminates on with a found path.
-/

namespace UTG

/-- Terrain constant TERRAIN_PLAINS from the source. -/
def TERRAIN_PLAINS : Int := 0

/-- Terrain constant TERRAIN_RIVER from the source. -/
def TERRAIN_RIVER : Int := 1

/-- Terrain constant TERRAIN_MOUNTAIN from the source. -/
def TERRAIN_MOUNTAIN : Int := 2

/-- Terrain constant TERRAIN_POI from the source. -/
def TERRAIN_POI : Int := 3

/-- Owner constant NO_TRACK_OWNER from the source. -/
def NO_TRACK_OWNER : Int := -1

/-- Owner constant NEUTRAL_TRACK_OWNER from the source. -/
def NEUTRAL_TRACK_OWNER : Int := 2

/-- PAINT_COST dict lookup with default: PAINT_COST.get(t, 1). -/
def paint_cost (t : Int) : Int :=
  if t = TERRAIN_PLAINS then 1
  else if t = TERRAIN_RIVER then 2
  else if t = TERRAIN_MOUNTAIN then 3
  else if t = TERRAIN_POI then 3
  else 1

/-- TrackEquationWeights dataclass (integral values of the float fields). -/
structure TrackEquationWeights where
  base_score : Int
  terrain_cost_weight : Int
  region_has_town_weight : Int
  on_shortest_path_weight : Int
  adjacent_to_my_track_weight : Int
  instability_weight : Int
  existing_track_penalty : Int
  inked_penalty : Int
deriving DecidableEq

/-- Default TrackEquationWeights values, as set by Game.init. -/
def default_track_weights : TrackEquationWeights :=
  { base_score := 100
    terrain_cost_weight := -5
    region_has_town_weight := 2
    on_shortest_path_weight := 40
    adjacent_to_my_track_weight := 25
    instability_weight := -15
    existing_track_penalty := -1000
    inked_penalty := -2000 }

/-- DisruptionEquationWeights dataclass (integral values of the float fields). -/
structure DisruptionEquationWeights where
  base_score : Int
  opponent_tracks_weight : Int
  my_tracks_weight : Int
  adjacent_to_town_weight : Int
  already_inked_penalty : Int
deriving DecidableEq

/-- Default DisruptionEquationWeights values, as set by Game.init. -/
def default_disruption_weights : DisruptionEquationWeights :=
  { base_score := 50
    opponent_tracks_weight := 30
    my_tracks_weight := -50
    adjacent_to_town_weight := 20
    already_inked_penalty := -3000 }

/-- Coord dataclass: an integer grid coordinate. -/
structure Coord where
  x : Int
  y : Int
deriving DecidableEq

/-- Connection dataclass: one active town-to-town connection. -/
structure Connection where
  from_id : Int
  to_id : Int
deriving DecidableEq

/-- Tile dataclass. -/
structure Tile where
  region_id : Int
  type : Int
  tracks_owner : Int
  inked : Bool
  instability : Int
  part_of_active_connections : List Connection
deriving DecidableEq

/-- Tile.has_track method. -/
def Tile.has_track (t : Tile) : Bool :=
  decide (t.tracks_owner ≠ NO_TRACK_OWNER)

/-- Tile.is_my_track method. -/
def Tile.is_my_track (t : Tile) (player_id : Int) : Bool :=
  decide (t.tracks_owner = player_id)

/-- Tile.is_neutral_track method. -/
def Tile.is_neutral_track (t : Tile) : Bool :=
  decide (t.tracks_owner = NEUTRAL_TRACK_OWNER)

/-- Town dataclass. -/
structure Town where
  id : Int
  coord : Coord
  desired_connections : List Int
deriving DecidableEq

/-- Region dataclass. -/
structure Region where
  id : Int
  instability : Int
  inked : Bool
  coords : List Coord
  has_town : Bool
deriving DecidableEq

/-- Region.is_destroyed method. -/
def Region.is_destroyed (r : Region) : Bool := r.inked

/-- Region.can_be_disrupted method. -/
def Region.can_be_disrupted (r : Region) : Bool := !r.inked

/-- Game object state.  The Grid dataclass (width, height, tiles) is
flattened into the three corresponding fields. -/
structure Game where
  my_id : Int
  width : Int
  height : Int
  tiles : List (List Tile)
  towns : List Town
  regions : List Region
  my_score : Int
  foe_score : Int
  track_weights : TrackEquationWeights
  disruption_weights : DisruptionEquationWeights
  shortest_path_tiles : List Coord
  region_adjacency : List (Int × List Int)
  town_coords : List Coord
  all_neighbors_cache : List (Coord × List Coord)
  regions_adjacent_to_towns : List Int

/-- Junk tile returned by get_tile out of bounds; engine call sites are
always guarded so it is never observed by the modelled code paths. -/
def default_tile : Tile :=
  { region_id := 0, type := 0, tracks_owner := -1, inked := false,
    instability := 0, part_of_active_connections := [] }

/-- Game.get_tile: grid.tiles[coord.y][coord.x]. -/
def get_tile (g : Game) (c : Coord) : Tile :=
  (g.tiles.getD c.y.toNat []).getD c.x.toNat default_tile

/-- Dict lookup region_by_id[region_id] (None when the key is absent,
which in Python would raise KeyError at the call sites). -/
def region_by_id? (g : Game) (region_id : Int) : Option Region :=
  g.regions.find? (fun r => decide (r.id = region_id))

/-- Game.get_region_at, returning none where Python would raise. -/
def get_region_at? (g : Game) (c : Coord) : Option Region :=
  region_by_id? g (get_tile g c).region_id

/-- Game.get_town_by_id: first town with the id, None otherwise. -/
def get_town_by_id (g : Game) (town_id : Int) : Option Town :=
  g.towns.find? (fun t => decide (t.id = town_id))

/-- Bounds check 0 <= x < width and 0 <= y < height. -/
def in_bounds (width height : Int) (c : Coord) : Bool :=
  decide (0 ≤ c.x) && decide (c.x < width) && decide (0 ≤ c.y) && decide (c.y < height)

/-- Game.is_valid_coord. -/
def is_valid_coord (g : Game) (c : Coord) : Bool :=
  in_bounds g.width g.height c

/-- Game.is_passable: in bounds and tile not inked. -/
def is_passable (g : Game) (c : Coord) : Bool :=
  is_valid_coord g c && !(get_tile g c).inked

/-- NORTH, EAST, SOUTH, WEST direction list used by get_neighbors and
by the static precomputation. -/
def directions (c : Coord) : List Coord :=
  [⟨c.x, c.y - 1⟩, ⟨c.x + 1, c.y⟩, ⟨c.x, c.y + 1⟩, ⟨c.x - 1, c.y⟩]

/-- Lookup in the all_neighbors_cache dict. -/
def lookup_neighbors (g : Game) (c : Coord) : Option (List Coord) :=
  (g.all_neighbors_cache.find? (fun p => decide (p.1 = c))).map Prod.snd

/-- Game.get_neighbors: cached neighbors filtered by inked status, with
the uncached fallback filtering the four directions by is_passable. -/
def get_neighbors (g : Game) (c : Coord) : List Coord :=
  match lookup_neighbors g c with
  | some ns => ns.filter (fun n => !(get_tile g n).inked)
  | none => (directions c).filter (fun d => is_passable g d)

/-- Game.get_tile_cost. -/
def get_tile_cost (g : Game) (c : Coord) : Int :=
  paint_cost (get_tile g c).type

/-- The cache built by step 1 of Game._precompute_static_data: every
in-grid coordinate mapped to its in-bounds four-directional neighbors. -/
def precompute_neighbors_cache (width height : Int) : List (Coord × List Coord) :=
  ((List.range height.toNat).flatMap (fun y =>
      (List.range width.toNat).map (fun x => (⟨(x : Int), (y : Int)⟩ : Coord)))).map
    (fun c => (c, (directions c).filter (fun d => in_bounds width height d)))

/-- Game._is_on_shortest_path_between_towns: set membership. -/
def is_on_shortest_path_between_towns (g : Game) (c : Coord) : Bool :=
  decide (c ∈ g.shortest_path_tiles)

/-- Game._is_town_location: set membership. -/
def is_town_location (g : Game) (c : Coord) : Bool :=
  decide (c ∈ g.town_coords)

/-- Game._is_adjacent_to_town_region: set membership of the region id. -/
def is_adjacent_to_town_region (g : Game) (region : Region) : Bool :=
  decide (region.id ∈ g.regions_adjacent_to_towns)

/-- Game._is_adjacent_to_my_track: cached neighbors scanned for a tile
owned by my_id; False when the coordinate is not in the cache. -/
def is_adjacent_to_my_track (g : Game) (c : Coord) : Bool :=
  match lookup_neighbors g c with
  | none => false
  | some ns => ns.any (fun n => (get_tile g n).is_my_track g.my_id)

/-- One step of the Game._count_tracks_in_region loop. -/
def count_step (g : Game) (acc : Int × Int × Int) (c : Coord) : Int × Int × Int :=
  let tile := get_tile g c
  if tile.is_my_track g.my_id then (acc.1 + 1, acc.2.1, acc.2.2)
  else if tile.is_my_track (1 - g.my_id) then (acc.1, acc.2.1 + 1, acc.2.2)
  else if tile.is_neutral_track then (acc.1, acc.2.1, acc.2.2 + 1)
  else acc

/-- Game._count_tracks_in_region: (my_tracks, opponent_tracks, neutral_tracks). -/
def count_tracks_in_region (g : Game) (region : Region) : Int × Int × Int :=
  region.coords.foldl (count_step g) (0, 0, 0)

/-- Game.calculate_track_score; none where Python would raise KeyError
on an unknown region id (fatal input-contract violation). -/
def calculate_track_score? (g : Game) (coord : Coord) : Option Int :=
  let tile := get_tile g coord
  (region_by_id? g tile.region_id).map (fun region =>
    let w := g.track_weights
    if tile.inked then w.inked_penalty
    else if tile.has_track then w.existing_track_penalty
    else
      w.base_score
        + w.terrain_cost_weight * get_tile_cost g coord
        + (if region.has_town then w.region_has_town_weight else 0)
        + (if is_on_shortest_path_between_towns g coord then w.on_shortest_path_weight else 0)
        + (if is_adjacent_to_my_track g coord then w.adjacent_to_my_track_weight else 0)
        + w.instability_weight * tile.instability)

/-- Game.calculate_disruption_score; none where Python would raise
KeyError on an unknown region id. -/
def calculate_disruption_score? (g : Game) (region_id : Int) : Option Int :=
  (region_by_id? g region_id).map (fun region =>
    let w := g.disruption_weights
    if region.is_destroyed then w.already_inked_penalty
    else if region.has_town then w.already_inked_penalty
    else
      let counts := count_tracks_in_region g region
      w.base_score
        + w.opponent_tracks_weight * counts.2.1
        + w.my_tracks_weight * counts.1
        + (if is_adjacent_to_town_region g region then w.adjacent_to_town_weight else 0))

/-- Insertion step of the stable descending sort on the score component.
Later elements with equal scores land after earlier ones, exactly the
output characterization of Python's stable sort with reverse=True. -/
def insert_desc {α : Type} (p : α × Int) : List (α × Int) → List (α × Int)
  | [] => [p]
  | q :: t => if p.2 ≤ q.2 then q :: insert_desc p t else p :: q :: t

/-- Stable sort descending by score: sorted(key=score, reverse=True). -/
def stable_sort_desc {α : Type} (l : List (α × Int)) : List (α × Int) :=
  l.foldl (fun acc p => insert_desc p acc) []

/-- Row-major coordinate enumeration: for y in range(height), for x in
range(width). -/
def all_coords (g : Game) : List Coord :=
  (List.range g.height.toNat).flatMap (fun y =>
    (List.range g.width.toNat).map (fun x => (⟨(x : Int), (y : Int)⟩ : Coord)))

/-- Game.get_all_placeable_tiles_with_scores.  The none branch of the
score is skipped where Python would raise on a malformed state. -/
def get_all_placeable_tiles_with_scores (g : Game) : List (Coord × Int) :=
  stable_sort_desc ((all_coords g).filterMap (fun coord =>
    let tile := get_tile g coord
    if tile.has_track || tile.inked || is_town_location g coord then none
    else (calculate_track_score? g coord).map (fun s => (coord, s))))

/-- Game.get_all_disruptable_regions_with_scores, iterating the
region_by_id dict in insertion order. -/
def get_all_disruptable_regions_with_scores (g : Game) : List (Int × Int) :=
  stable_sort_desc (g.regions.filterMap (fun r =>
    if r.can_be_disrupted then
      (calculate_disruption_score? g r.id).map (fun s => (r.id, s))
    else none))

/-- Queue-processing loop of Game._find_shortest_path_bfs with explicit
fuel (see the module comment for the fuel bound argument). -/
def bfs_loop (g : Game) (goal : Coord) :
    Nat → List (Coord × List Coord) → List Coord → List Coord
  | 0, _, _ => []
  | _ + 1, [], _ => []
  | fuel + 1, (current, path) :: rest, visited =>
    if current = goal then (path.drop 1).dropLast
    else
      let fresh := (get_neighbors g current).filter (fun n => !decide (n ∈ visited))
      bfs_loop g goal fuel (rest ++ fresh.map (fun n => (n, path ++ [n]))) (visited ++ fresh)

/-- Game._find_shortest_path_bfs: BFS from start to goal returning the
path with its first and last elements stripped (path[1:-1]). -/
def find_shortest_path_bfs (g : Game) (start goal : Coord) : List Coord :=
  if start = goal then []
  else bfs_loop g goal (g.width.toNat * g.height.toNat + 2) [(start, [start])] [start]

/-- Python set.update modelled membership-preservingly on lists. -/
def set_update (acc p : List Coord) : List Coord :=
  acc ++ p.filter (fun c => !decide (c ∈ acc))

/-- Game._compute_shortest_paths_between_towns: union of the BFS paths
between every town and each of its desired connections. -/
def compute_shortest_path_tiles (g : Game) : List Coord :=
  g.towns.foldl (fun acc town =>
    town.desired_connections.foldl (fun acc2 desired_id =>
      match get_town_by_id g desired_id with
      | none => acc2
      | some target =>
        let p := find_shortest_path_bfs g town.coord target.coord
        if p.isEmpty then acc2 else set_update acc2 p) acc) []

/-- Per-turn snapshot values for one tile, as read by Game.parse. -/
structure TileUpdate where
  tracks_owner : Int
  instability : Int
  inked : Bool
  part_of_active_connections : List Connection
deriving DecidableEq

/-- Per-turn snapshot, as read by Game.parse (scores, then row-major
per-tile updates). -/
structure Snapshot where
  my_score : Int
  foe_score : Int
  tiles : List (List TileUpdate)

/-- Overwrite of the four mutable tile fields done in the Game.parse
loop body. -/
def apply_tile_update (t : Tile) (u : TileUpdate) : Tile :=
  { t with tracks_owner := u.tracks_owner, inked := u.inked,
           instability := u.instability,
           part_of_active_connections := u.part_of_active_connections }

/-- Tile-and-score portion of Game.parse (everything before the final
recompute call). -/
def update_tiles (g : Game) (snap : Snapshot) : Game :=
  { g with
    my_score := snap.my_score
    foe_score := snap.foe_score
    tiles := List.zipWith (fun row urow => List.zipWith apply_tile_update row urow)
      g.tiles snap.tiles }

/-- Game.parse: ingest the snapshot, then recompute shortest paths for
the new inked state.  Note that no Region field is written. -/
def parse (g : Game) (snap : Snapshot) : Game :=
  let g1 := update_tiles g snap
  { g1 with shortest_path_tiles := compute_shortest_path_tiles g1 }

/-- Output actions; rendering to the textual protocol is the
out-of-scope ActionEmitter boundary. -/
inductive Action where
  | PLACE_TRACKS (x y : Int)
  | DISRUPT (region_id : Int)
  | WAIT
deriving DecidableEq

/-- Track-placement loop of Game.game_turn, returning the selected
coordinates in order (the Python loop appends the corresponding
PLACE_TRACKS action at selection time). -/
def select_tiles (g : Game) : List (Coord × Int) → Int → List Coord
  | [], _ => []
  | (coord, score) :: rest, available_paint =>
    if score ≤ 0 then []
    else
      let cost := get_tile_cost g coord
      if cost ≤ available_paint then
        if available_paint - cost ≤ 0 then [coord]
        else coord :: select_tiles g rest (available_paint - cost)
      else if available_paint ≤ 0 then []
      else select_tiles g rest available_paint

/-- Disruption part of Game.game_turn: one DISRUPT on the top-scoring
region when the list is non-empty and its score is strictly positive
(Python: if scored_regions and scored_regions[0][1] > 0). -/
def disrupt_actions (g : Game) : List Action :=
  match get_all_disruptable_regions_with_scores g with
  | [] => []
  | (best_region_id, best_score) :: _ =>
    if 0 < best_score then [Action.DISRUPT best_region_id] else []

/-- Game.game_turn: greedy paint allocation, then at most one
disruption, then the WAIT sentinel when nothing was selected. -/
def game_turn (g : Game) : List Action :=
  let scored_tiles := get_all_placeable_tiles_with_scores g
  let place_actions := (select_tiles g scored_tiles 3).map
    (fun c => Action.PLACE_TRACKS c.x c.y)
  let actions := place_actions ++ disrupt_actions g
  if actions.isEmpty then [Action.WAIT] else actions

/-- Coordinates of the PLACE_TRACKS actions of an action list. -/
def placed_coords (acts : List Action) : List Coord :=
  acts.filterMap (fun a =>
    match a with
    | Action.PLACE_TRACKS x y => some ⟨x, y⟩
    | _ => none)

/-- Predicate picking out DISRUPT actions. -/
def is_disrupt_action (a : Action) : Bool :=
  match a with
  | Action.DISRUPT _ => true
  | _ => false

/-- Modelled from the spec: the Planner track-allocation wording of
section 4.4, selection phase — for each remaining candidate in order,
if its terrain cost is at most the remaining budget, select it and
deduct its cost; continue until budget is exhausted or candidates run
out. -/
def spec_select_go (g : Game) : List (Coord × Int) → Int → List Coord
  | [], _ => []
  | (coord, _) :: rest, budget =>
    if get_tile_cost g coord ≤ budget then
      coord :: spec_select_go g rest (budget - get_tile_cost g coord)
    else
      spec_select_go g rest budget

/-- Modelled from the spec: the full Planner track allocation of
section 4.4 — walk the sorted list, stopping entirely at the first
candidate with non-positive score, then select greedily under the fixed
budget of 3. -/
def spec_select (g : Game) (cands : List (Coord × Int)) : List Coord :=
  spec_select_go g (cands.takeWhile (fun p => decide (0 < p.2))) 3

/-! Concrete game states used as inputs of counterexamples, witnesses
and code-bug evaluations.  Each is laid out exactly as Game.init would
build it from the corresponding initialization snapshot (static derived
fields included), followed where needed by the turn data. -/

/-- Plain empty tile of a given region, as built by Game.init. -/
def plain_tile (rid : Int) : Tile :=
  { region_id := rid, type := 0, tracks_owner := -1, inked := false,
    instability := 0, part_of_active_connections := [] }

/-- Scenario state of claim C9: 3 by 3 all-plain single-region grid,
no towns, no tracks. -/
def g9 : Game :=
  { my_id := 0, width := 3, height := 3
    tiles := List.replicate 3 (List.replicate 3 (plain_tile 0))
    towns := []
    regions := [⟨0, 0, false,
      [⟨0, 0⟩, ⟨1, 0⟩, ⟨2, 0⟩, ⟨0, 1⟩, ⟨1, 1⟩, ⟨2, 1⟩, ⟨0, 2⟩, ⟨1, 2⟩, ⟨2, 2⟩], false⟩]
    my_score := 0, foe_score := 0
    track_weights := default_track_weights
    disruption_weights := default_disruption_weights
    shortest_path_tiles := []
    region_adjacency := [(0, [])]
    town_coords := []
    all_neighbors_cache := precompute_neighbors_cache 3 3
    regions_adjacent_to_towns := [] }

/-- Single 3 by 1 corridor whose region sits at instability 2 (one
disruption away from being inked), nothing inked. -/
def g3 : Game :=
  { my_id := 0, width := 3, height := 1
    tiles := [[
      { plain_tile 0 with instability := 2 },
      { plain_tile 0 with instability := 2 },
      { plain_tile 0 with instability := 2 }]]
    towns := []
    regions := [⟨0, 2, false, [⟨0, 0⟩, ⟨1, 0⟩, ⟨2, 0⟩], false⟩]
    my_score := 0, foe_score := 0
    track_weights := default_track_weights
    disruption_weights := default_disruption_weights
    shortest_path_tiles := []
    region_adjacency := [(0, [])]
    town_coords := []
    all_neighbors_cache := precompute_neighbors_cache 3 1
    regions_adjacent_to_towns := [] }

/-- Freshly initialized 1 by 1 state for the C1 parse evaluation. -/
def g1c : Game :=
  { my_id := 0, width := 1, height := 1
    tiles := [[plain_tile 0]]
    towns := []
    regions := [⟨0, 0, false, [⟨0, 0⟩], false⟩]
    my_score := 0, foe_score := 0
    track_weights := default_track_weights
    disruption_weights := default_disruption_weights
    shortest_path_tiles := []
    region_adjacency := [(0, [])]
    town_coords := []
    all_neighbors_cache := precompute_neighbors_cache 1 1
    regions_adjacent_to_towns := [] }

/-- Snapshot reporting the single tile of g1c at instability 3, inked. -/
def snap1c : Snapshot :=
  { my_score := 0, foe_score := 0
    tiles := [[⟨-1, 3, true, []⟩]] }

/-- Base of the C6 state, before the initial path computation: a 3 by 1
corridor with towns at both ends and one desired connection. -/
def g6base : Game :=
  { my_id := 0, width := 3, height := 1
    tiles := [[plain_tile 0, plain_tile 0, plain_tile 0]]
    towns := [⟨0, ⟨0, 0⟩, [1]⟩, ⟨1, ⟨2, 0⟩, []⟩]
    regions := [⟨0, 0, false, [⟨0, 0⟩, ⟨1, 0⟩, ⟨2, 0⟩], true⟩]
    my_score := 0, foe_score := 0
    track_weights := default_track_weights
    disruption_weights := default_disruption_weights
    shortest_path_tiles := []
    region_adjacency := [(0, [])]
    town_coords := [⟨0, 0⟩, ⟨2, 0⟩]
    all_neighbors_cache := precompute_neighbors_cache 3 1
    regions_adjacent_to_towns := [] }

/-- C6 state with its path cache as Game.init computes it. -/
def g6 : Game :=
  { g6base with shortest_path_tiles := compute_shortest_path_tiles g6base }

/-- Snapshot inking the middle tile of the g6 corridor. -/
def snap6 : Snapshot :=
  { my_score := 0, foe_score := 0
    tiles := [[⟨-1, 0, false, []⟩, ⟨-1, 3, true, []⟩, ⟨-1, 0, false, []⟩]] }

/-- C2 counterexample state: a 63 by 1 strip whose first tile is the
sole tile of town region 5, and whose other 62 tiles form legal region
7 entirely covered by the agent's own tracks. -/
def g2c : Game :=
  { my_id := 0, width := 63, height := 1
    tiles := [plain_tile 5 ::
      List.replicate 62 { plain_tile 7 with tracks_owner := 0 }]
    towns := [⟨0, ⟨0, 0⟩, []⟩]
    regions := [⟨5, 0, false, [⟨0, 0⟩], true⟩,
      ⟨7, 0, false, (List.range 62).map (fun i => ⟨(i : Int) + 1, 0⟩), false⟩]
    my_score := 0, foe_score := 0
    track_weights := default_track_weights
    disruption_weights := default_disruption_weights
    shortest_path_tiles := []
    region_adjacency := [(5, [7]), (7, [5])]
    town_coords := [⟨0, 0⟩]
    all_neighbors_cache := precompute_neighbors_cache 63 1
    regions_adjacent_to_towns := [7] }

/-- C7 witness state: 2 by 1 grid, an own track on the first tile and a
legal empty tile next to it. -/
def g7 : Game :=
  { my_id := 0, width := 2, height := 1
    tiles := [[{ plain_tile 0 with tracks_owner := 0 }, plain_tile 0]]
    towns := []
    regions := [⟨0, 0, false, [⟨0, 0⟩, ⟨1, 0⟩], false⟩]
    my_score := 0, foe_score := 0
    track_weights := default_track_weights
    disruption_weights := default_disruption_weights
    shortest_path_tiles := []
    region_adjacency := [(0, [])]
    town_coords := []
    all_neighbors_cache := precompute_neighbors_cache 2 1
    regions_adjacent_to_towns := [] }

/-- Reachability in the passability graph the BFS explores: the
reflexive-transitive closure of the get_neighbors step.  Used to state
the unreachable case of the shortest-path contract. -/
inductive reachable (g : Game) : Coord → Coord → Prop where
  | refl (c : Coord) : reachable g c c
  | step {a b c : Coord} : reachable g a b → c ∈ get_neighbors g b → reachable g a c

/-- Invariant carried by every BFS queue entry (coordinate, path): the
path is non-empty, ends at the entry's coordinate, never has the goal
before its last position, and all its elements after the head avoid the
start coordinate and are non-inked. -/
def queue_inv (g : Game) (goal start : Coord) (cp : Coord × List Coord) : Prop :=
  cp.2 ≠ [] ∧ cp.2.getLast? = some cp.1 ∧ goal ∉ cp.2.dropLast ∧
    ∀ x ∈ cp.2.drop 1, x ≠ start ∧ (get_tile g x).inked = false

/-! Helper lemmas shared by several claim proofs. -/

/-- Paint cost is always between 1 and 3, whatever the terrain value. -/
lemma paint_cost_bounds (t : Int) : 1 ≤ paint_cost t ∧ paint_cost t ≤ 3 := by
  unfold paint_cost
  split_ifs <;> norm_num

/-- Tile cost bounds, the Game.get_tile_cost corollary. -/
lemma get_tile_cost_bounds (g : Game) (c : Coord) :
    1 ≤ get_tile_cost g c ∧ get_tile_cost g c ≤ 3 :=
  paint_cost_bounds (get_tile g c).type

/-- Membership through the stable-sort insertion step. -/
lemma mem_insert_desc {α : Type} {p q : α × Int} {l : List (α × Int)} :
    q ∈ insert_desc p l ↔ q = p ∨ q ∈ l := by
  induction l with
  | nil => simp [insert_desc]
  | cons a t ih =>
    unfold insert_desc
    split_ifs with h
    · simp only [List.mem_cons, ih]
      tauto
    · simp [List.mem_cons]

/-- Membership through the stable-sort fold. -/
lemma mem_stable_sort_aux {α : Type} :
    ∀ (l acc : List (α × Int)) (q : α × Int),
      q ∈ l.foldl (fun a p => insert_desc p a) acc ↔ q ∈ acc ∨ q ∈ l := by
  intro l
  induction l with
  | nil => intro acc q; simp
  | cons a t ih =>
    intro acc q
    simp only [List.foldl_cons, ih, mem_insert_desc, List.mem_cons]
    tauto

/-- Sorting changes no memberships. -/
lemma mem_stable_sort {α : Type} {l : List (α × Int)} {q : α × Int} :
    q ∈ stable_sort_desc l ↔ q ∈ l := by
  unfold stable_sort_desc
  rw [mem_stable_sort_aux]
  simp

/-- One counting step never decreases a component. -/
lemma count_step_ge (g : Game) (acc : Int × Int × Int) (c : Coord) :
    acc.1 ≤ (count_step g acc c).1 ∧ acc.2.1 ≤ (count_step g acc c).2.1 := by
  simp only [count_step]
  split_ifs <;> constructor <;> simp

/-- The counting fold never decreases a component. -/
lemma count_foldl_ge (g : Game) :
    ∀ (l : List Coord) (acc : Int × Int × Int),
      acc.1 ≤ (l.foldl (count_step g) acc).1 ∧
        acc.2.1 ≤ (l.foldl (count_step g) acc).2.1 := by
  intro l
  induction l with
  | nil => intro acc; simp
  | cons c t ih =>
    intro acc
    simp only [List.foldl_cons]
    have h1 := count_step_ge g acc c
    have h2 := ih (count_step g acc c)
    exact ⟨le_trans h1.1 h2.1, le_trans h1.2 h2.2⟩

/-- Track counts are non-negative. -/
lemma count_tracks_nonneg (g : Game) (r : Region) :
    0 ≤ (count_tracks_in_region g r).1 ∧ 0 ≤ (count_tracks_in_region g r).2.1 := by
  unfold count_tracks_in_region
  simpa using count_foldl_ge g r.coords (0, 0, 0)

/-- With distinct region ids (the dict-key discipline), looking a
region's own id up returns that region. -/
lemma find?_id_self {rs : List Region} (hnd : (rs.map Region.id).Nodup)
    {r : Region} (hr : r ∈ rs) :
    rs.find? (fun q => decide (q.id = r.id)) = some r := by
  induction rs with
  | nil => simp at hr
  | cons a t ih =>
    rw [List.map_cons, List.nodup_cons] at hnd
    rcases List.mem_cons.mp hr with rfl | hrt
    · simp [List.find?]
    · have hne : ¬ a.id = r.id :=
        fun he => hnd.1 (he ▸ List.mem_map_of_mem Region.id hrt)
      have hpa : decide (a.id = r.id) = false := by
        simp [hne]
      rw [List.find?_cons, hpa]
      exact ih hnd.2 hrt

/-- Dict-lookup form of find?_id_self. -/
lemma region_by_id?_self {g : Game} (hnd : (g.regions.map Region.id).Nodup)
    {r : Region} (hr : r ∈ g.regions) :
    region_by_id? g r.id = some r :=
  find?_id_self hnd hr

/-- Everything get_neighbors returns is a non-inked tile (both the
cached branch and the fallback filter by inked status). -/
lemma get_neighbors_not_inked {g : Game} {c n : Coord} (h : n ∈ get_neighbors g c) :
    (get_tile g n).inked = false := by
  unfold get_neighbors at h
  rcases hl : lookup_neighbors g c with _ | ns
  · rw [hl] at h
    rcases List.mem_filter.mp h with ⟨_, hp⟩
    unfold is_passable at hp
    simp at hp
    exact hp.2
  · rw [hl] at h
    rcases List.mem_filter.mp h with ⟨_, hp⟩
    simpa using hp

/-- Dropping the head commutes with list concatenation of a non-empty
list with a singleton. -/
lemma drop_one_concat {p : List Coord} {n : Coord} (h : p ≠ []) :
    (p ++ [n]).drop 1 = p.drop 1 ++ [n] := by
  cases p with
  | nil => exact absurd rfl h
  | cons a t => rfl

/-- Members of dropLast of the tail are members of dropLast. -/
lemma mem_dropLast_of_drop_one {l : List Coord} {a : Coord}
    (h : a ∈ (l.drop 1).dropLast) : a ∈ l.dropLast := by
  cases l with
  | nil => simp at h
  | cons b t =>
    cases t with
    | nil => simp at h
    | cons b2 t2 => exact List.mem_cons_of_mem b (by simpa using h)

/-- A list member is in dropLast or is the last element. -/
lemma mem_dropLast_or_getLast {l : List Coord} {x : Coord} (h : x ∈ l) :
    x ∈ l.dropLast ∨ l.getLast? = some x := by
  induction l with
  | nil => simp at h
  | cons a t ih =>
    cases t with
    | nil =>
      rcases List.mem_singleton.mp h with rfl
      right
      rfl
    | cons b t2 =>
      rcases List.mem_cons.mp h with rfl | h2
      · left
        exact List.mem_cons_self _ _
      · rcases ih h2 with hl | hg
        · left
          exact List.mem_cons_of_mem a hl
        · right
          rw [List.getLast?_cons_cons]
          exact hg

/-- Soundness invariant of the BFS loop: any returned coordinate
differs from the start and the goal and lies on a non-inked tile. -/
lemma bfs_loop_sound (g : Game) (goal start : Coord) :
    ∀ (fuel : Nat) (queue : List (Coord × List Coord)) (visited : List Coord),
      start ∈ visited →
      (∀ cp ∈ queue, queue_inv g goal start cp) →
      ∀ c ∈ bfs_loop g goal fuel queue visited,
        c ≠ start ∧ c ≠ goal ∧ (get_tile g c).inked = false := by
  intro fuel
  induction fuel with
  | zero =>
    intro queue visited _ _ c hc
    simp [bfs_loop] at hc
  | succ n ih =>
    intro queue visited hv hq c hc
    match queue with
    | [] => simp [bfs_loop] at hc
    | (current, path) :: rest =>
      simp only [bfs_loop] at hc
      obtain ⟨hne, hlast, hgoal, hint⟩ := hq (current, path) (List.mem_cons_self _ _)
      by_cases hcg : current = goal
      · rw [if_pos hcg] at hc
        have h1 : c ∈ path.drop 1 := List.dropLast_subset _ hc
        have h2 := hint c h1
        refine ⟨h2.1, ?_, h2.2⟩
        intro hceq
        exact hgoal (hceq ▸ mem_dropLast_of_drop_one hc)
      · rw [if_neg hcg] at hc
        refine ih _ _ (List.mem_append_left _ hv) ?_ c hc
        intro cp hcp
        rcases List.mem_append.mp hcp with hrest | hnew
        · exact hq cp (List.mem_cons_of_mem _ hrest)
        · rcases List.mem_map.mp hnew with ⟨m, hm, rfl⟩
          rcases List.mem_filter.mp hm with ⟨hmn, hmv⟩
          have hmnv : m ∉ visited := by simpa using hmv
          refine ⟨by simp, ?_, ?_, ?_⟩
          · simp [List.getLast?_concat]
          · rw [List.dropLast_concat]
            intro hgp
            rcases mem_dropLast_or_getLast hgp with h | h
            · exact hgoal h
            · rw [hlast] at h
              injection h with h
              exact hcg h
          · intro x hx
            rw [drop_one_concat hne] at hx
            rcases List.mem_append.mp hx with hxo | hxn
            · exact hint x hxo
            · rcases List.mem_singleton.mp hxn with rfl
              refine ⟨fun hxs => hmnv (hxs ▸ hv), get_neighbors_not_inked hmn⟩

/-- Soundness of the BFS entry point: any returned coordinate differs
from both endpoints and is non-inked. -/
lemma find_shortest_path_sound (g : Game) (s t : Coord) :
    ∀ c ∈ find_shortest_path_bfs g s t,
      c ≠ s ∧ c ≠ t ∧ (get_tile g c).inked = false := by
  intro c hc
  unfold find_shortest_path_bfs at hc
  by_cases h : s = t
  · rw [if_pos h] at hc
    simp at hc
  · rw [if_neg h] at hc
    refine bfs_loop_sound g t s _ _ _ (List.mem_singleton_self _) ?_ c hc
    intro cp hcp
    rcases List.mem_singleton.mp hcp with rfl
    refine ⟨by simp, by simp, by simp, by simp⟩

/-- If every queued coordinate is reachable from the start, a non-empty
BFS answer implies the goal is reachable: the loop only returns a
non-empty list after popping an entry whose coordinate is the goal, and
enqueued coordinates are get_neighbors steps from popped ones. -/
lemma bfs_loop_reachable (g : Game) (goal start : Coord) :
    ∀ (fuel : Nat) (queue : List (Coord × List Coord)) (visited : List Coord),
      (∀ cp ∈ queue, reachable g start cp.1) →
      bfs_loop g goal fuel queue visited ≠ [] →
      reachable g start goal := by
  intro fuel
  induction fuel with
  | zero =>
    intro queue visited _ hne
    simp [bfs_loop] at hne
  | succ n ih =>
    intro queue visited hq hne
    match queue with
    | [] => simp [bfs_loop] at hne
    | (current, path) :: rest =>
      simp only [bfs_loop] at hne
      by_cases hcg : current = goal
      · exact hcg ▸ hq (current, path) (List.mem_cons_self _ _)
      · rw [if_neg hcg] at hne
        refine ih _ _ ?_ hne
        intro cp hcp
        rcases List.mem_append.mp hcp with hrest | hnew
        · exact hq cp (List.mem_cons_of_mem _ hrest)
        · rcases List.mem_map.mp hnew with ⟨m, hm, rfl⟩
          rcases List.mem_filter.mp hm with ⟨hmn, _⟩
          exact reachable.step (hq (current, path) (List.mem_cons_self _ _)) hmn

/-- Unreachable goals give the empty path. -/
lemma find_shortest_path_unreachable (g : Game) (s t : Coord)
    (h : ¬ reachable g s t) : find_shortest_path_bfs g s t = [] := by
  by_contra hne
  apply h
  unfold find_shortest_path_bfs at hne
  split_ifs at hne with hst
  · exact absurd rfl hne
  · refine bfs_loop_reachable g t s _ _ _ ?_ hne
    intro cp hcp
    rcases List.mem_singleton.mp hcp with rfl
    exact reachable.refl s

/-- In the concrete corridor state g3, everything reachable from (0,0)
stays inside the three corridor tiles. -/
lemma g3_reach_closed :
    ∀ c : Coord, reachable g3 ⟨0, 0⟩ c →
      c ∈ ([⟨0, 0⟩, ⟨1, 0⟩, ⟨2, 0⟩] : List Coord) := by
  intro c h
  induction h with
  | refl => simp
  | step hab hmem ih =>
    have hcl : ∀ b ∈ ([⟨0, 0⟩, ⟨1, 0⟩, ⟨2, 0⟩] : List Coord),
        ∀ x ∈ get_neighbors g3 b, x ∈ ([⟨0, 0⟩, ⟨1, 0⟩, ⟨2, 0⟩] : List Coord) := by
      decide
    exact hcl _ ih _ hmem

/-- With no budget left nothing is selectable: every terrain cost is at
least 1. -/
lemma spec_select_go_nonpos (g : Game) :
    ∀ (l : List (Coord × Int)) (b : Int), b ≤ 0 → spec_select_go g l b = [] := by
  intro l
  induction l with
  | nil => intro b _; rfl
  | cons p t ih =>
    intro b hb
    obtain ⟨c, s⟩ := p
    have h1 := (get_tile_cost_bounds g c).1
    simp only [spec_select_go]
    rw [if_neg (by omega)]
    exact ih b hb

/-- The selection loop of game_turn computes exactly the spec's
allocation: truncate at the first non-positive score, then greedily
select every candidate whose cost fits the remaining budget.  The two
differ only in that the Python loop breaks as soon as the budget hits
zero, which changes nothing because every cost is at least 1. -/
lemma select_tiles_eq_spec (g : Game) :
    ∀ (l : List (Coord × Int)) (b : Int), 0 < b →
      select_tiles g l b
        = spec_select_go g (l.takeWhile (fun p => decide (0 < p.2))) b := by
  intro l
  induction l with
  | nil => intro b _; rfl
  | cons p t ih =>
    intro b hb
    obtain ⟨c, s⟩ := p
    by_cases hs : s ≤ 0
    · have hp : (decide (0 < s)) = false := by simp; omega
      rw [List.takeWhile_cons]
      simp only [hp]
      simp only [select_tiles]
      rw [if_pos hs]
      rfl
    · have hp : (decide (0 < s)) = true := by simp; omega
      rw [List.takeWhile_cons]
      simp only [hp]
      simp only [select_tiles, spec_select_go]
      rw [if_neg hs]
      by_cases hca : get_tile_cost g c ≤ b
      · rw [if_pos hca, if_pos hca]
        by_cases hz : b - get_tile_cost g c ≤ 0
        · rw [if_pos hz, spec_select_go_nonpos g _ _ hz]
        · rw [if_neg hz, ih (b - get_tile_cost g c) (by omega)]
      · rw [if_neg hca, if_neg hca, if_neg (by omega)]
        exact ih b hb

/-- The selection loop never spends more than its budget. -/
lemma select_tiles_cost_le (g : Game) :
    ∀ (l : List (Coord × Int)) (b : Int), 0 ≤ b →
      ((select_tiles g l b).map (get_tile_cost g)).sum ≤ b := by
  intro l
  induction l with
  | nil => intro b hb; simpa using hb
  | cons p t ih =>
    intro b hb
    obtain ⟨c, s⟩ := p
    simp only [select_tiles]
    split_ifs with h1 h2 h3 h4
    · simpa using hb
    · simpa using h2
    · have hrec := ih (b - get_tile_cost g c) (by omega)
      simp only [List.map_cons, List.sum_cons]
      omega
    · simpa using hb
    · exact ih b hb

/-- Projecting the placement coordinates back out of the emitted
PLACE_TRACKS actions. -/
lemma placed_coords_map_place (l : List Coord) :
    placed_coords (l.map (fun c => Action.PLACE_TRACKS c.x c.y)) = l := by
  induction l with
  | nil => rfl
  | cons c t ih =>
    show (⟨c.x, c.y⟩ : Coord) :: placed_coords
      (t.map (fun c => Action.PLACE_TRACKS c.x c.y)) = c :: t
    rw [ih]

/-- The disruption part contributes no placement coordinates. -/
lemma placed_disrupt (g : Game) : placed_coords (disrupt_actions g) = [] := by
  unfold disrupt_actions
  split
  · rfl
  · split_ifs <;> rfl

/-- The placements game_turn emits are exactly the selection loop's
output. -/
lemma placed_coords_game_turn (g : Game) :
    placed_coords (game_turn g)
      = select_tiles g (get_all_placeable_tiles_with_scores g) 3 := by
  simp only [game_turn]
  split_ifs with he
  · have h2 := List.isEmpty_iff.mp he
    rcases List.append_eq_nil.mp h2 with ⟨hA, _⟩
    rcases List.map_eq_nil_iff.mp hA with hsel
    rw [hsel]
    rfl
  · unfold placed_coords
    rw [List.filterMap_append]
    show placed_coords _ ++ placed_coords (disrupt_actions g) = _
    rw [placed_disrupt, placed_coords_map_place, List.append_nil]

/-- The disruption part holds at most one DISRUPT action. -/
lemma disrupt_actions_countP (g : Game) :
    (disrupt_actions g).countP is_disrupt_action ≤ 1 := by
  unfold disrupt_actions
  split
  · simp
  · split_ifs <;> simp [is_disrupt_action]

/-- A DISRUPT emitted by the disruption part names the head of the
sorted region list, and only when its score is strictly positive. -/
lemma mem_disrupt_actions {g : Game} {rid : Int}
    (h : Action.DISRUPT rid ∈ disrupt_actions g) :
    ∃ s rest, get_all_disruptable_regions_with_scores g = (rid, s) :: rest ∧ 0 < s := by
  unfold disrupt_actions at h
  split at h
  · simp at h
  · rename_i best_region_id best_score rest heq
    split_ifs at h with hpos
    · rcases List.mem_singleton.mp h with hd
      injection hd with hd
      exact ⟨best_score, rest, hd ▸ heq, hpos⟩
    · simp at h

/-- C1: Game.parse overwrites every tile's owner, instability, inked
and connection fields from the snapshot, but — contradicting the claim
and the engine's own region guards — it never propagates instability or
inked onto the owning Region: after ingesting a snapshot that inks the
only region's tile at instability 3, the tile shows the new values
while the Region object still carries its initialization values. -/
theorem C1_parse_region_stale :
    (get_tile (parse g1c snap1c) ⟨0, 0⟩).inked = true ∧
    (get_tile (parse g1c snap1c) ⟨0, 0⟩).instability = 3 ∧
    (get_tile (parse g1c snap1c) ⟨0, 0⟩).tracks_owner = -1 ∧
    (region_by_id? (parse g1c snap1c) 0).map Region.inked = some false ∧
    (region_by_id? (parse g1c snap1c) 0).map Region.instability = some 0 := by
  decide

/-- C2 counterexample: in state g2c the town region 5 scores the fixed
penalty -3000 while the perfectly legal region 7 (not inked, no town,
62 of the agent's own tracks) scores -3030, so an illegal region does
NOT score strictly lower than every legal disruption candidate. -/
theorem C2_counterexample :
    g2c.regions.map Region.id = [5, 7] ∧
    g2c.regions.map Region.has_town = [true, false] ∧
    g2c.regions.map Region.inked = [false, false] ∧
    calculate_disruption_score? g2c 5 = some (-3000) ∧
    calculate_disruption_score? g2c 7 = some (-3030) ∧
    ((-3030 : Int) < -3000) := by
  decide

/-- C3 counterexample: in state g3 the tile (1,0) belongs to a region
at instability 2 (at or above any caution threshold the spec's "one
disruption away from being inked" wording allows), yet it is passable
and the returned shortest path from (0,0) to (2,0) runs through it —
the search has no instability condition at all. -/
theorem C3_counterexample :
    is_passable g3 ⟨1, 0⟩ = true ∧
    (get_tile g3 ⟨1, 0⟩).inked = false ∧
    (get_tile g3 ⟨1, 0⟩).instability = 2 ∧
    (get_region_at? g3 ⟨1, 0⟩).map Region.instability = some 2 ∧
    (⟨1, 0⟩ : Coord) ∈ find_shortest_path_bfs g3 ⟨0, 0⟩ ⟨2, 0⟩ := by
  decide

/-- C4 counterexample: the BFS result strips BOTH endpoints
(path[1:-1]), so the nonempty path from (0,0) to (2,0) does not include
the destination, and the path to the adjacent, reachable and distinct
tile (1,0) is empty even though from is different from to. -/
theorem C4_counterexample :
    find_shortest_path_bfs g3 ⟨0, 0⟩ ⟨2, 0⟩ = [⟨1, 0⟩] ∧
    (⟨2, 0⟩ : Coord) ∉ find_shortest_path_bfs g3 ⟨0, 0⟩ ⟨2, 0⟩ ∧
    find_shortest_path_bfs g3 ⟨0, 0⟩ ⟨1, 0⟩ = [] ∧
    (⟨1, 0⟩ : Coord) ≠ ⟨0, 0⟩ ∧
    is_passable g3 ⟨1, 0⟩ = true := by
  decide

/-- C3 amended: a tile is traversable if and only if it is in bounds
and not inked — region instability plays no role in passability — and
consequently no returned path passes through an inked tile (but may
pass through arbitrarily unstable ones, see the counterexample). -/
theorem C3_amended (g : Game) (s t : Coord) :
    (∀ c : Coord, is_passable g c = (is_valid_coord g c && !(get_tile g c).inked)) ∧
    (∀ c ∈ find_shortest_path_bfs g s t, (get_tile g c).inked = false) := by
  constructor
  · intro c
    rfl
  · intro c hc
    exact (find_shortest_path_sound g s t c hc).2.2

/-- C3 witness at the concrete corridor state. -/
theorem C3_witness : (get_tile g3 ⟨1, 0⟩).inked = false :=
  (C3_amended g3 ⟨0, 0⟩ ⟨2, 0⟩).2 ⟨1, 0⟩ (by decide)

/-- C4 amended: shortest_path excludes BOTH endpoints from the result
(path[1:-1]); shortest_path(c, c) is empty for every c; when the goal
is unreachable (no chain of get_neighbors steps connects the
endpoints) the result is empty; and the result may also be empty for
distinct reachable endpoints whenever the found path has no interior
tile. -/
theorem C4_amended (g : Game) (s t : Coord) :
    find_shortest_path_bfs g s s = [] ∧
    (∀ c ∈ find_shortest_path_bfs g s t, c ≠ s ∧ c ≠ t) ∧
    (¬ reachable g s t → find_shortest_path_bfs g s t = []) := by
  refine ⟨?_, ?_, ?_⟩
  · unfold find_shortest_path_bfs
    rw [if_pos rfl]
  · intro c hc
    exact ⟨(find_shortest_path_sound g s t c hc).1,
      (find_shortest_path_sound g s t c hc).2.1⟩
  · exact find_shortest_path_unreachable g s t

/-- C4 witness at the concrete corridor state, exercising the
equal-endpoints case, the endpoint-exclusion case and the unreachable
case (the out-of-grid coordinate (5,5) is unreachable from (0,0)). -/
theorem C4_witness :
    find_shortest_path_bfs g3 ⟨0, 0⟩ ⟨0, 0⟩ = [] ∧
    ((⟨1, 0⟩ : Coord) ≠ ⟨0, 0⟩ ∧ (⟨1, 0⟩ : Coord) ≠ ⟨2, 0⟩) ∧
    find_shortest_path_bfs g3 ⟨0, 0⟩ ⟨5, 5⟩ = [] :=
  ⟨(C4_amended g3 ⟨0, 0⟩ ⟨2, 0⟩).1,
    (C4_amended g3 ⟨0, 0⟩ ⟨2, 0⟩).2.1 ⟨1, 0⟩ (by decide),
    (C4_amended g3 ⟨0, 0⟩ ⟨5, 5⟩).2.2
      (fun h => by simpa using g3_reach_closed ⟨5, 5⟩ h)⟩

/-- C6 counterexample: the per-turn update recomputes the path cache;
after a snapshot inks the only corridor tile of g6, the precomputed
shortest-path tile (1,0) disappears from shortest_path_tiles, so the
set before the update differs from the set after it. -/
theorem C6_counterexample :
    g6.shortest_path_tiles = [⟨1, 0⟩] ∧
    (⟨1, 0⟩ : Coord) ∈ g6.shortest_path_tiles ∧
    (⟨1, 0⟩ : Coord) ∉ (parse g6 snap6).shortest_path_tiles ∧
    (get_tile (parse g6 snap6) ⟨1, 0⟩).inked = true := by
  decide

/-- C6 amended: the update operation leaves every static derived
structure unchanged (towns, regions list, region adjacency, town
coordinates, neighbor cache, town-adjacent region set), but
shortest_path_tiles is recomputed from the freshly ingested tile state
on every update and can change. -/
theorem C6_amended (g : Game) (snap : Snapshot) :
    (parse g snap).towns = g.towns ∧
    (parse g snap).regions = g.regions ∧
    (parse g snap).region_adjacency = g.region_adjacency ∧
    (parse g snap).town_coords = g.town_coords ∧
    (parse g snap).all_neighbors_cache = g.all_neighbors_cache ∧
    (parse g snap).regions_adjacent_to_towns = g.regions_adjacent_to_towns ∧
    (parse g snap).shortest_path_tiles
      = compute_shortest_path_tiles (update_tiles g snap) :=
  ⟨rfl, rfl, rfl, rfl, rfl, rfl, rfl⟩

/-- C7: with the shipped default weights and instability within the
input contract bounds, every inked or already-tracked tile scores
strictly lower than every legal (empty, non-inked) placement
candidate: penalties are at most -1000 while a legal score is at least
100 - 5*3 - 15*3 = 40. -/
theorem C7_sentinel (g : Game) (c1 c2 : Coord) (s1 s2 : Int)
    (hw : g.track_weights = default_track_weights)
    (h1 : (get_tile g c1).inked = true ∨ (get_tile g c1).has_track = true)
    (h2i : (get_tile g c2).inked = false)
    (h2t : (get_tile g c2).has_track = false)
    (hlo : 0 ≤ (get_tile g c2).instability)
    (hhi : (get_tile g c2).instability ≤ 3)
    (hs1 : calculate_track_score? g c1 = some s1)
    (hs2 : calculate_track_score? g c2 = some s2) :
    s1 < s2 := by
  simp only [calculate_track_score?] at hs1 hs2
  rw [Option.map_eq_some'] at hs1 hs2
  obtain ⟨r1, hr1, he1⟩ := hs1
  obtain ⟨r2, hr2, he2⟩ := hs2
  rw [hw] at he1 he2
  simp only [default_track_weights] at he1 he2
  have hs1le : s1 ≤ -1000 := by
    rcases h1 with hi | ht
    · rw [if_pos hi] at he1
      omega
    · by_cases hi2 : (get_tile g c1).inked = true
      · rw [if_pos hi2] at he1
        omega
      · rw [if_neg hi2, if_pos ht] at he1
        omega
  have hni : ¬((get_tile g c2).inked = true) := by simp [h2i]
  have hnt : ¬((get_tile g c2).has_track = true) := by simp [h2t]
  rw [if_neg hni, if_neg hnt] at he2
  obtain ⟨hcl, hch⟩ := get_tile_cost_bounds g c2
  split_ifs at he2 <;> omega

/-- C7 witness: an own-track tile at -1000 against a legal neighbor at
120 in the concrete two-tile state. -/
theorem C7_witness : (-1000 : Int) < 120 :=
  C7_sentinel g7 ⟨0, 0⟩ ⟨1, 0⟩ (-1000) 120 rfl (Or.inr (by decide)) (by decide)
    (by decide) (by decide) (by decide) (by decide) (by decide)

/-- C8: the pipeline is a pure function of the world state, so equal
states yield the same shortest paths and the identical action list. -/
theorem C8_determinism (g1 g2 : Game) (a b : Coord) (h : g1 = g2) :
    game_turn g1 = game_turn g2 ∧
    find_shortest_path_bfs g1 a b = find_shortest_path_bfs g2 a b := by
  subst h
  exact ⟨rfl, rfl⟩

/-- C8 witness at a concrete state and coordinate pair. -/
theorem C8_witness :
    game_turn g9 = game_turn g9 ∧
    find_shortest_path_bfs g9 ⟨0, 0⟩ ⟨2, 2⟩ = find_shortest_path_bfs g9 ⟨0, 0⟩ ⟨2, 2⟩ :=
  C8_determinism g9 g9 ⟨0, 0⟩ ⟨2, 2⟩ rfl

/-- C9: on the 3 by 3 all-plain single-region grid with no towns and no
tracks, every tile scores the same value (95), and the emitted
placements are exactly the first three tiles in row-major scan order,
each of plain cost 1. -/
theorem C9_scenario :
    (all_coords g9).map (fun c => calculate_track_score? g9 c)
      = List.replicate 9 (some 95) ∧
    placed_coords (game_turn g9) = [⟨0, 0⟩, ⟨1, 0⟩, ⟨2, 0⟩] ∧
    (placed_coords (game_turn g9)).map (get_tile_cost g9) = [1, 1, 1] := by
  decide

/-- C10: the terrain-cost accessor is total: plains cost 1, river 2,
mountain 3, point of interest 3, and any terrain value outside the
enumeration falls back to the default cost 1. -/
theorem C10_terrain_cost (g : Game) (c : Coord) :
    ((get_tile g c).type = TERRAIN_PLAINS → get_tile_cost g c = 1) ∧
    ((get_tile g c).type = TERRAIN_RIVER → get_tile_cost g c = 2) ∧
    ((get_tile g c).type = TERRAIN_MOUNTAIN → get_tile_cost g c = 3) ∧
    ((get_tile g c).type = TERRAIN_POI → get_tile_cost g c = 3) ∧
    ((get_tile g c).type ≠ TERRAIN_PLAINS → (get_tile g c).type ≠ TERRAIN_RIVER →
      (get_tile g c).type ≠ TERRAIN_MOUNTAIN → (get_tile g c).type ≠ TERRAIN_POI →
      get_tile_cost g c = 1) := by
  refine ⟨fun h => ?_, fun h => ?_, fun h => ?_, fun h => ?_, fun h0 h1 h2 h3 => ?_⟩ <;>
    simp_all [get_tile_cost, paint_cost,
      TERRAIN_PLAINS, TERRAIN_RIVER, TERRAIN_MOUNTAIN, TERRAIN_POI]

/-- C10 witness: a concrete plains tile costs 1. -/
theorem C10_witness : get_tile_cost g9 ⟨0, 0⟩ = 1 :=
  (C10_terrain_cost g9 ⟨0, 0⟩).1 rfl

/-- C5: the per-turn placements are exactly the spec's greedy walk —
stop at the first non-positive score, then select every affordable
candidate in order (skipping unaffordable ones) — and their total
terrain cost never exceeds the paint budget of 3. -/
theorem C5_allocator (g : Game) :
    placed_coords (game_turn g)
      = spec_select g (get_all_placeable_tiles_with_scores g) ∧
    ((placed_coords (game_turn g)).map (get_tile_cost g)).sum ≤ 3 := by
  have hp := placed_coords_game_turn g
  constructor
  · rw [hp]
    unfold spec_select
    exact select_tiles_eq_spec g _ 3 (by norm_num)
  · rw [hp]
    exact select_tiles_cost_le g _ 3 (by norm_num)

/-- C2 amended: with the shipped default weights and dict-unique region
ids, (1) every inked or town region scores the fixed penalty -3000;
(2) that penalty is strictly below every legal candidate whose own
track count is at most 60 (with 61 own tracks a legal region ties at
-3000 and with 62 it scores below the penalty, so the claim's "strictly
lower than every legal candidate" does not hold unconditionally);
(3) at most one DISRUPT action is emitted per turn; (4) an emitted
DISRUPT always targets a region whose inked flag is false and that has
no town; and (5) a DISRUPT is emitted only when it names the top entry
of the score-sorted region list and that top score is strictly
positive. -/
theorem C2_amended (g : Game)
    (hw : g.disruption_weights = default_disruption_weights)
    (hnd : (g.regions.map Region.id).Nodup) :
    (∀ r ∈ g.regions, (r.inked = true ∨ r.has_town = true) →
        calculate_disruption_score? g r.id = some (-3000)) ∧
    (∀ r ∈ g.regions, r.inked = false → r.has_town = false →
        (count_tracks_in_region g r).1 ≤ 60 →
        ∃ sc, calculate_disruption_score? g r.id = some sc ∧ -3000 < sc) ∧
    ((game_turn g).countP is_disrupt_action ≤ 1) ∧
    (∀ rid, Action.DISRUPT rid ∈ game_turn g →
        ∃ r, r ∈ g.regions ∧ r.id = rid ∧ r.inked = false ∧ r.has_town = false) ∧
    (∀ rid, Action.DISRUPT rid ∈ game_turn g →
        ∃ s rest, get_all_disruptable_regions_with_scores g = (rid, s) :: rest ∧
          0 < s) := by
  refine ⟨?_, ?_, ?_, ?_, ?_⟩
  · intro r hr hbad
    unfold calculate_disruption_score?
    rw [region_by_id?_self hnd hr]
    simp only [Option.map_some']
    rcases hbad with hi | ht
    · simp [Region.is_destroyed, hi, hw, default_disruption_weights]
    · by_cases hi2 : r.inked = true
      · simp [Region.is_destroyed, hi2, hw, default_disruption_weights]
      · simp [Region.is_destroyed, hi2, ht, hw, default_disruption_weights]
  · intro r hr hi ht hm
    have hnn := count_tracks_nonneg g r
    unfold calculate_disruption_score?
    rw [region_by_id?_self hnd hr]
    simp only [Option.map_some']
    refine ⟨_, rfl, ?_⟩
    have hnd1 : ¬(r.is_destroyed = true) := by simp [Region.is_destroyed, hi]
    have hnt1 : ¬(r.has_town = true) := by simp [ht]
    rw [if_neg hnd1, if_neg hnt1, hw]
    simp only [default_disruption_weights]
    split_ifs <;> omega
  · simp only [game_turn]
    split_ifs with he
    · simp [is_disrupt_action]
    · rw [List.countP_append]
      have h1 : ((select_tiles g (get_all_placeable_tiles_with_scores g) 3).map
          (fun c => Action.PLACE_TRACKS c.x c.y)).countP is_disrupt_action = 0 := by
        rw [List.countP_map]
        simp [Function.comp, is_disrupt_action]
      have h2 := disrupt_actions_countP g
      omega
  · intro rid hmem
    simp only [game_turn] at hmem
    split_ifs at hmem with he
    · simp at hmem
    · rw [List.mem_append] at hmem
      rcases hmem with hA | hB
      · rcases List.mem_map.mp hA with ⟨c, _, habs⟩
        cases habs
      · obtain ⟨s, rest, heq, hpos⟩ := mem_disrupt_actions hB
        have hm : (rid, s) ∈ get_all_disruptable_regions_with_scores g :=
          heq ▸ List.mem_cons_self _ _
        unfold get_all_disruptable_regions_with_scores at hm
        rw [mem_stable_sort] at hm
        rcases List.mem_filterMap.mp hm with ⟨r, hr, hfr⟩
        by_cases hcd : r.can_be_disrupted = true
        case neg =>
          rw [if_neg hcd] at hfr
          cases hfr
        rw [if_pos hcd] at hfr
        rcases Option.map_eq_some'.mp hfr with ⟨sc, hsc, hpair⟩
        injection hpair with hid hscs
        have hink : r.inked = false := by
          unfold Region.can_be_disrupted at hcd
          simpa using hcd
        by_cases htw : r.has_town = true
        · exfalso
          unfold calculate_disruption_score? at hsc
          rw [region_by_id?_self hnd hr] at hsc
          simp only [Option.map_some'] at hsc
          injection hsc with hsc
          rw [if_neg (by simp [Region.is_destroyed, hink]), if_pos htw, hw] at hsc
          simp only [default_disruption_weights] at hsc
          omega
        · exact ⟨r, hr, hid, hink, by simpa using htw⟩
  · intro rid hmem
    simp only [game_turn] at hmem
    split_ifs at hmem with he
    · simp at hmem
    · rw [List.mem_append] at hmem
      rcases hmem with hA | hB
      · rcases List.mem_map.mp hA with ⟨c, _, habs⟩
        cases habs
      · exact mem_disrupt_actions hB

/-- C2 witness: the amended theorem applied at the concrete g2c state,
on its town region 5. -/
theorem C2_witness : calculate_disruption_score? g2c 5 = some (-3000) :=
  (C2_amended g2c rfl (by decide)).1 ⟨5, 0, false, [⟨0, 0⟩], true⟩ (by decide)
    (Or.inr rfl)

end UTG
